import Mathlib

/-
  Verification development for the wazo-auth core.

  Shallow embedding of:
  - the ACL matching engine (wazo_auth/token.py: Token.matches_required_acl,
    Token._transform_acl_to_regex, Token._transform_acl_me_to_uuid_or_me,
    Token.is_expired)
  - the expiry sweeper event publication (ExpiredTokenRemover._publish_event)
  - the lazy ACL template renderer (wazo_auth/helpers.py: LazyTemplateRenderer)
  - the query paginator (wazo_auth/database.py: QueryPaginator)
  - the membership-association DAO operations (wazo_auth/database.py:
    _UserDAO.add_policy, _TenantDAO.add_user)

  Strings are modelled as lists of characters.  Python regular expressions are
  modelled by a small abstract-syntax tree covering exactly the constructs that
  the ACL compiler emits, together with a language-membership matcher; the
  lazy quantifiers that the source emits only change which match is found,
  never whether a match exists, so boolean matching is modelled by full
  enumeration of split points.
-/

/-- Characters of a Lean string literal, used to write concrete inputs. -/
def strL (s : String) : List Char := s.data

/-- True when the needle occurs as a contiguous substring of the haystack. -/
def occursIn (needle : List Char) : List Char → Bool
  | [] => needle.isEmpty
  | c :: cs => needle.isPrefixOf (c :: cs) || occursIn needle cs

/-- Worker for Python str.replace: scans left to right; after substituting a
match it skips the remainder of the matched text (the skip counter), so
replacement is non-overlapping, exactly as in CPython. -/
def pyReplaceAux (needle repl : List Char) : Nat → List Char → List Char
  | _, [] => []
  | 0, c :: cs =>
      if needle.isPrefixOf (c :: cs) then
        repl ++ pyReplaceAux needle repl (needle.length - 1) cs
      else
        c :: pyReplaceAux needle repl 0 cs
  | k + 1, _ :: cs => pyReplaceAux needle repl k cs

/-- Python str.replace(needle, repl).  The source never calls replace with an
empty needle, so that case is mapped to the identity. -/
def pyReplace (needle repl s : List Char) : List Char :=
  if needle.isEmpty then s else pyReplaceAux needle repl 0 s

/-- The characters escaped by Python re.escape (CPython 3.7+ special set). -/
def reEscapeSpecial (c : Char) : Bool :=
  c ∈ ['(', ')', '[', ']', '{', '}', '?', '*', '+', '-', '|', '^', '$',
       '\\', '.', '&', '~', '#', ' ', '\t', '\n', '\r', '\x0B', '\x0C']

/-- Python re.escape: every special character is preceded by a backslash. -/
def reEscape (s : List Char) : List Char :=
  (s.map (fun c => if reEscapeSpecial c then ['\\', c] else [c])).flatten

/-- Atoms of the regex fragment produced by the ACL compiler: escaped literal
characters, the single-segment wildcard `[^.]*?`, the multi-segment wildcard
`.*?`, and the two-way literal alternation `(me|<auth_id>)`. -/
inductive RAtom where
  | lit (c : Char)
  | starNonDot
  | starAny
  | alt (a b : List Char)
deriving DecidableEq

/-- Raw characters that are regex metacharacters; any other raw character in a
pattern stands for itself. -/
def regexMeta (c : Char) : Bool :=
  c ∈ ['(', ')', '[', ']', '{', '}', '?', '*', '+', '|', '^', '$', '\\', '.']

/-- Collect literal group content up to the next occurrence of the stop
character, refusing metacharacters (the generated groups hold only literal
alternatives). Returns the content and the remainder after the stop char. -/
def takeGroupPart (stop : Char) : List Char → Option (List Char × List Char)
  | [] => none
  | c :: cs =>
      if c = stop then some ([], cs)
      else if regexMeta c then none
      else (takeGroupPart stop cs).map (fun p => (c :: p.1, p.2))

/-- Parser for the regex fragment emitted by the ACL compiler, with explicit
fuel (each step consumes at least one character, so length + 1 suffices). -/
def parseReAux : Nat → List Char → Option (List RAtom)
  | 0, _ => none
  | _ + 1, [] => some []
  | fuel + 1, '\\' :: c :: rest =>
      (parseReAux fuel rest).map (RAtom.lit c :: ·)
  | fuel + 1, '[' :: '^' :: '.' :: ']' :: '*' :: '?' :: rest =>
      (parseReAux fuel rest).map (RAtom.starNonDot :: ·)
  | fuel + 1, '.' :: '*' :: '?' :: rest =>
      (parseReAux fuel rest).map (RAtom.starAny :: ·)
  | fuel + 1, '(' :: rest =>
      match takeGroupPart '|' rest with
      | none => none
      | some (a, rest2) =>
          match takeGroupPart ')' rest2 with
          | none => none
          | some (b, rest3) =>
              (parseReAux fuel rest3).map (RAtom.alt a b :: ·)
  | fuel + 1, c :: rest =>
      if regexMeta c then none
      else (parseReAux fuel rest).map (RAtom.lit c :: ·)

/-- Parse a pattern body into atoms; none when the body falls outside the
fragment the ACL compiler can emit. -/
def parseRe (p : List Char) : Option (List RAtom) :=
  parseReAux (p.length + 1) p

/-- The suffixes of s reachable by consuming a (possibly empty) block of
characters that all satisfy p: the candidate continuations after a starred
character class. -/
def starSuffixes (p : Char → Bool) : List Char → List (List Char)
  | [] => [[]]
  | c :: cs => (c :: cs) :: (if p c then starSuffixes p cs else [])

/-- Language membership for an atom sequence against an entire string.  The
empty sequence accepts only the empty remainder, which together with
`reMatch` models the `^...$` anchoring.  Quantifier laziness is irrelevant to
membership, so stars enumerate all split points. -/
def matchSeq : List RAtom → List Char → Bool
  | [], s => s.isEmpty
  | RAtom.lit c :: as, s =>
      match s with
      | [] => false
      | d :: ds => c = d && matchSeq as ds
  | RAtom.starNonDot :: as, s =>
      (starSuffixes (fun c => c ≠ '.') s).any (fun v => matchSeq as v)
  | RAtom.starAny :: as, s =>
      (starSuffixes (fun c => c ≠ '\n') s).any (fun v => matchSeq as v)
  | RAtom.alt a b :: as, s =>
      (a.isPrefixOf s && matchSeq as (s.drop a.length)) ||
      (b.isPrefixOf s && matchSeq as (s.drop b.length))

/-- Python re.match of a compiled pattern of the shape caret-body-dollar
against s.  The dollar anchor also matches just before a final newline, as in
Python without MULTILINE; the dot wildcard never crosses a newline. -/
def reMatch (pattern s : List Char) : Bool :=
  match pattern with
  | '^' :: rest =>
      if rest.getLast? = some '$' then
        match parseRe rest.dropLast with
        | some atoms =>
            matchSeq atoms s ||
            (s.getLast? = some '\n' && matchSeq atoms s.dropLast)
        | none => false
      else false
  | _ => false

/-- Source: Token._transform_acl_me_to_uuid_or_me (wazo_auth/token.py lines
132-140).  Operates on the already-escaped regex text: every occurrence of the
text backslash-dot-m-e-backslash-dot becomes the alternation form, then a
trailing backslash-dot-m-e is rewritten the same way (the slice drops the
last four characters, as in the source). -/
def transformAclMeToUuidOrMe (authId aclRegex : List Char) : List Char :=
  let r := pyReplace (strL "\\.me\\.")
      (strL "\\.(me|" ++ authId ++ strL ")\\.") aclRegex
  if (strL "\\.me").isSuffixOf r then
    r.take (r.length - 4) ++ strL "\\.(me|" ++ authId ++ strL ")"
  else r

/-- Source: Token._transform_acl_to_regex (wazo_auth/token.py lines 127-130):
escape the ACL, substitute the two wildcards, substitute me, then anchor with
caret and dollar (the re.compile of the formatted string). -/
def transformAclToRegex (authId acl : List Char) : List Char :=
  let r := pyReplace (strL "\\#") (strL ".*?")
      (pyReplace (strL "\\*") (strL "[^.]*?") (reEscape acl))
  '^' :: transformAclMeToUuidOrMe authId r ++ ['$']

/-- One positive ACL pattern tested against a required ACL: compile the
pattern and run re.match, per the loop bodies of matches_required_acl. -/
def aclMatches (authId acl required : List Char) : Bool :=
  reMatch (transformAclToRegex authId acl) required

/-- Python user_acl.startswith of the bang character. -/
def startsWithBang : List Char → Bool
  | '!' :: _ => true
  | _ => false

/-- Source: Token.matches_required_acl (wazo_auth/token.py lines 103-125).
None is allowed outright; otherwise the ACL list is partitioned into negative
rules (leading bang stripped) and positive rules; any matching negative rule
denies, else any matching positive rule allows, else deny.  The source
collects the rules into sets before looping; only membership matters to the
first-match loops, so lists stand in for the sets. -/
def matchesRequiredAcl (authId : List Char) (acls : List (List Char))
    (requiredAcl : Option (List Char)) : Bool :=
  match requiredAcl with
  | none => true
  | some required =>
      let negatives := (acls.filter (fun a => startsWithBang a)).map (List.drop 1)
      let positives := acls.filter (fun a => !startsWithBang a)
      if negatives.any (fun n => aclMatches authId n required) then false
      else positives.any (fun p => aclMatches authId p required)

/-- Outcome of rendering one Jinja template against a context: the rendered
text, an undefined-variable failure (StrictUndefined), or another error. -/
inductive RenderResult (ε : Type) where
  | ok (text : List Char)
  | undef
  | err (e : ε)

/-- Python str.split on the newline character: every newline is a separator,
so k newlines yield k + 1 pieces. -/
def splitNl : List Char → List (List Char)
  | [] => [[]]
  | c :: cs =>
      match splitNl cs with
      | [] => [[c]]
      | l :: ls => if c = '\n' then [] :: l :: ls else (c :: l) :: ls

/-- The non-empty lines of a rendered template: the split on newline plus the
truthiness filter of the yield loop in _evaluate_template. -/
def nonEmptyLines (text : List Char) : List (List Char) :=
  (splitNl text).filter (fun acl => acl ≠ [])

/-- State of a LazyTemplateRenderer (wazo_auth/helpers.py lines 11-43).  A
template is modelled abstractly as a function from a context to a render
outcome (Jinja itself is an external collaborator); get_data_fn is modelled by
the context value it returns. -/
structure LazyRenderer (Ctx ε : Type) where
  aclTemplates : List (Ctx → RenderResult ε)
  getDataFn : Ctx
  data : Ctx
  initialized : Bool

/-- Source: LazyTemplateRenderer._evaluate_template (helpers.py lines 28-43).
Try the template on the held data; on success yield its non-empty lines; on an
undefined variable, if the context was already fetched yield nothing, else
mark initialized, fetch the data and retry (the source's recursive call is
unrolled once: on re-entry initialized is true, so depth never exceeds two);
any other error propagates.  The Nat in the result counts get_data_fn
invocations performed by this step. -/
def evaluateTemplate {Ctx ε : Type} (tpl : Ctx → RenderResult ε)
    (r : LazyRenderer Ctx ε) : Except ε (List (List Char) × LazyRenderer Ctx ε × Nat) :=
  match tpl r.data with
  | .ok text => .ok (nonEmptyLines text, r, 0)
  | .err e => .error e
  | .undef =>
      if r.initialized then .ok ([], r, 0)
      else
        let r2 : LazyRenderer Ctx ε :=
          { r with initialized := true, data := r.getDataFn }
        match tpl r2.data with
        | .ok text => .ok (nonEmptyLines text, r2, 1)
        | .err e => .error e
        | .undef => .ok ([], r2, 1)

/-- The render loop over the template list, threading the renderer state and
accumulating ACLs in order, as in LazyTemplateRenderer.render (lines 21-26). -/
def renderGo {Ctx ε : Type} : List (Ctx → RenderResult ε) →
    LazyRenderer Ctx ε → Except ε (List (List Char) × LazyRenderer Ctx ε × Nat)
  | [], r => .ok ([], r, 0)
  | t :: ts, r =>
      match evaluateTemplate t r with
      | .error e => .error e
      | .ok (acls, r2, n) =>
          match renderGo ts r2 with
          | .error e => .error e
          | .ok (rest, r3, m) => .ok (acls ++ rest, r3, n + m)

/-- LazyTemplateRenderer.render on a fresh renderer: data starts as the empty
context, initialized starts false. -/
def lazyRender {Ctx ε : Type} (emptyCtx : Ctx) (getDataFn : Ctx)
    (tpls : List (Ctx → RenderResult ε)) :
    Except ε (List (List Char) × LazyRenderer Ctx ε × Nat) :=
  renderGo tpls { aclTemplates := tpls, getDataFn := getDataFn,
                  data := emptyCtx, initialized := false }

/-- A session row summary, as consumed by ExpiredTokenRemover._publish_event. -/
structure SweeperSession where
  uuid : String
deriving DecidableEq

/-- A token row summary: its session, auth_id and metadata map. -/
structure SweeperToken where
  session_uuid : String
  auth_id : String
  metadata : List (String × String)
deriving DecidableEq

/-- Python dict.get on the metadata map: first binding or none. -/
def metaGet (m : List (String × String)) (k : String) : Option String :=
  (m.find? (fun p => p.1 = k)).map (fun p => p.2)

/-- Payload of a SessionDeleted or SessionExpireSoon event. -/
structure SessionEvent where
  uuid : String
  user_uuid : Option String
  tenant_uuid : Option String
deriving DecidableEq

/-- The event built for one session: the for-break-else over tokens keeps the
first token whose session_uuid matches; without a match the user and tenant
fields stay None. -/
def eventForSession (tokens : List SweeperToken) (s : SweeperSession) :
    SessionEvent :=
  match tokens.find? (fun t => t.session_uuid = s.uuid) with
  | some t => ⟨s.uuid, some t.auth_id, metaGet t.metadata "tenant_uuid"⟩
  | none => ⟨s.uuid, none, none⟩

/-- Source: ExpiredTokenRemover._publish_event (wazo_auth/token.py lines
211-228).  For each session, in order: build the event args, fill them from
the first matching token if any, log a warning otherwise (the for-else), and
publish the event - the publish call sits outside the token loop, so it runs
for every session.  Returns the published events and the warned session
uuids. -/
def publishEvents (tokens : List SweeperToken) :
    List SweeperSession → List SessionEvent × List String
  | [] => ([], [])
  | s :: rest =>
      let (evs, warns) := publishEvents tokens rest
      match tokens.find? (fun t => t.session_uuid = s.uuid) with
      | some t =>
          (⟨s.uuid, some t.auth_id, metaGet t.metadata "tenant_uuid"⟩ :: evs, warns)
      | none => (⟨s.uuid, none, none⟩ :: evs, s.uuid :: warns)

/-- A Python value as supplied for limit and offset: bool, int, str or None.
Booleans are kept distinct from ints because the source tests identity with
True and False before anything else. -/
inductive PyVal where
  | pyBool (b : Bool)
  | pyInt (n : Int)
  | pyStr (s : String)
  | pyNone
deriving DecidableEq

/-- Whitespace stripped by Python int() around a numeric string. -/
def pySpace (c : Char) : Bool :=
  c ∈ [' ', '\t', '\n', '\r', '\x0B', '\x0C']

/-- Decimal digit test. -/
def isDigitChar (c : Char) : Bool := '0' ≤ c && c ≤ '9'

/-- Value of a non-empty decimal digit string. -/
def digitsToNat (ds : List Char) : Nat :=
  ds.foldl (fun n c => 10 * n + (c.toNat - 48)) 0

/-- Python int() on a string: strip surrounding whitespace, optional sign,
then decimal digits; none models the ValueError raised otherwise.  Underscore
separators and non-decimal bases are not modelled: the paginator only ever
sees plain query-string numbers. -/
def parsePyInt (s : List Char) : Option Int :=
  let t := ((s.dropWhile pySpace).reverse.dropWhile pySpace).reverse
  match t with
  | '+' :: ds =>
      if ds ≠ [] ∧ ds.all isDigitChar then some (digitsToNat ds) else none
  | '-' :: ds =>
      if ds ≠ [] ∧ ds.all isDigitChar then some (-(digitsToNat ds : Int)) else none
  | ds =>
      if ds ≠ [] ∧ ds.all isDigitChar then some (digitsToNat ds) else none

/-- Python int() applied to a PyVal that is neither a bool nor None (those are
dispatched earlier in the source); none models ValueError. -/
def pyIntOf : PyVal → Option Int
  | .pyBool b => some (if b then 1 else 0)
  | .pyInt n => some n
  | .pyStr s => parsePyInt s.data
  | .pyNone => none

/-- Pagination errors raised by QueryPaginator. -/
inductive PageError where
  | invalidSortColumn (s : String)
  | invalidSortDirection (s : String)
  | invalidLimit (v : PyVal)
  | invalidOffset (v : PyVal)
deriving DecidableEq

/-- The observable effect of update_query on the SQLAlchemy query: the order
clause, limit and offset that were applied. -/
structure PgQuery where
  orderBy : Option (String × String) := none
  limit : Option Int := none
  offset : Option Int := none
deriving DecidableEq

/-- Decidable equality for Except results, used to state concrete outcomes. -/
def exceptDecEq {ε α : Type} [DecidableEq ε] [DecidableEq α] :
    (x y : Except ε α) → Decidable (x = y)
  | .ok a, .ok b =>
      if h : a = b then .isTrue (by rw [h])
      else .isFalse (by intro hh; cases hh; exact h rfl)
  | .ok _, .error _ => .isFalse (by intro h; cases h)
  | .error _, .ok _ => .isFalse (by intro h; cases h)
  | .error e, .error f =>
      if h : e = f then .isTrue (by rw [h])
      else .isFalse (by intro hh; cases hh; exact h rfl)

instance {ε α : Type} [DecidableEq ε] [DecidableEq α] : DecidableEq (Except ε α) :=
  exceptDecEq

/-- Source: QueryPaginator._check_valid_limit_or_offset (database.py lines
780-795): booleans are rejected by identity first, None returns the supplied
default, then int() conversion (ValueError becomes the supplied error), then
negatives are rejected. -/
def checkValidLimitOrOffset (value : PyVal) (default : Option Int)
    (mk : PyVal → PageError) : Except PageError (Option Int) :=
  match value with
  | .pyBool b => .error (mk (.pyBool b))
  | .pyNone => .ok default
  | v =>
      match pyIntOf v with
      | none => .error (mk v)
      | some n => if n < 0 then .error (mk v) else .ok (some n)

/-- Python truthiness of an optional string argument: None and the empty
string are falsy. -/
def truthyStr : Option String → Bool
  | none => false
  | some s => s ≠ ""

/-- Source: QueryPaginator.update_query (database.py lines 751-778).  Sorting
is validated and applied only when order and direction are both truthy, with
the order column checked before the direction; then a non-None limit and a
non-None offset are each validated and applied. -/
def updateQuery (columnMap : List String) (query : PgQuery)
    (limit offset : Option PyVal) (order direction : Option String) :
    Except PageError PgQuery :=
  let step1 : Except PageError PgQuery :=
    if truthyStr order ∧ truthyStr direction then
      match order, direction with
      | some o, some d =>
          if ¬ columnMap.contains o then .error (.invalidSortColumn o)
          else if ¬ (d = "asc" ∨ d = "desc") then .error (.invalidSortDirection d)
          else .ok { query with orderBy := some (o, d) }
      | _, _ => .ok query
    else .ok query
  match step1 with
  | .error e => .error e
  | .ok q1 =>
      let step2 : Except PageError PgQuery :=
        match limit with
        | none => .ok q1
        | some v =>
            match checkValidLimitOrOffset v none .invalidLimit with
            | .error e => .error e
            | .ok n => .ok { q1 with limit := n }
      match step2 with
      | .error e => .error e
      | .ok q2 =>
          match offset with
          | none => .ok q2
          | some v =>
              match checkValidLimitOrOffset v (some 0) .invalidOffset with
              | .error e => .error e
              | .ok n => .ok { q2 with offset := n }

/-- Errors surfaced by the membership-association DAO operations. -/
inductive StoreError where
  | unknownUser (uuid : String)
  | unknownPolicy (uuid : String)
  | unknownTenant (uuid : String)
  | reraised (constraint : String)
deriving DecidableEq

/-- The database state visible to the two association operations: the
existing endpoint rows and the association rows. -/
structure Store where
  users : List String
  policies : List String
  tenants : List String
  userPolicies : List (String × String)
  tenantUsers : List (String × String)
deriving DecidableEq

/-- Errors raised by the database engine on commit of an insert. -/
inductive DbError where
  | uniqueViolation
  | fkeyViolation (constraint : String)
deriving DecidableEq

/-- Commit of an auth_user_policy insert, as constrained by the schema in
wazo_auth/database/models.py: the composite primary key makes a duplicate
pair a unique violation (pgcode 23505) and a missing endpoint a foreign-key
violation (pgcode 23503) carrying the violated constraint's name. -/
def insertUserPolicy (st : Store) (u p : String) : Except DbError Store :=
  if (u, p) ∈ st.userPolicies then .error .uniqueViolation
  else if u ∉ st.users then .error (.fkeyViolation "auth_user_policy_user_uuid_fkey")
  else if p ∉ st.policies then .error (.fkeyViolation "auth_user_policy_policy_uuid_fkey")
  else .ok { st with userPolicies := st.userPolicies ++ [(u, p)] }

/-- Commit of an auth_tenant_user insert, mirroring insertUserPolicy for the
tenant-user association table. -/
def insertTenantUser (st : Store) (t u : String) : Except DbError Store :=
  if (t, u) ∈ st.tenantUsers then .error .uniqueViolation
  else if t ∉ st.tenants then .error (.fkeyViolation "auth_tenant_user_tenant_uuid_fkey")
  else if u ∉ st.users then .error (.fkeyViolation "auth_tenant_user_user_uuid_fkey")
  else .ok { st with tenantUsers := st.tenantUsers ++ [(t, u)] }

/-- Source: _UserDAO.add_policy (database.py lines 572-589): a unique
violation is consumed after rollback (the association already exists), a
foreign-key violation is translated by constraint name to UnknownUser or
UnknownPolicy, and anything else is re-raised. -/
def addPolicy (st : Store) (u p : String) : Except StoreError Store :=
  match insertUserPolicy st u p with
  | .ok st2 => .ok st2
  | .error .uniqueViolation => .ok st
  | .error (.fkeyViolation c) =>
      if c = "auth_user_policy_user_uuid_fkey" then .error (.unknownUser u)
      else if c = "auth_user_policy_policy_uuid_fkey" then .error (.unknownPolicy p)
      else .error (.reraised c)

/-- Source: _TenantDAO.add_user (database.py lines 385-402): same handling as
add_policy over the tenant-user association. -/
def addUser (st : Store) (t u : String) : Except StoreError Store :=
  match insertTenantUser st t u with
  | .ok st2 => .ok st2
  | .error .uniqueViolation => .ok st
  | .error (.fkeyViolation c) =>
      if c = "auth_tenant_user_tenant_uuid_fkey" then .error (.unknownTenant t)
      else if c = "auth_tenant_user_user_uuid_fkey" then .error (.unknownUser u)
      else .error (.reraised c)

/-- Source: Token.is_expired (wazo_auth/token.py lines 100-101): the Python
expression truthiness-of-expire_t and now-greater-than-expire_t.  A missing
expire_t is None; timestamps are modelled as rationals. -/
def isExpired (expire_t : Option ℚ) (now : ℚ) : Bool :=
  match expire_t with
  | none => false
  | some e => decide (e ≠ 0) && decide (now > e)

/-- A replace whose needle never occurs leaves the text unchanged,
independently of the replacement text. -/
theorem pyReplaceAux_of_not_occurs (needle repl : List Char) :
    ∀ s : List Char, occursIn needle s = false →
      pyReplaceAux needle repl 0 s = s := by
  intro s
  induction s with
  | nil => intro _; rfl
  | cons c cs ih =>
      intro h
      simp only [occursIn, Bool.or_eq_false_iff] at h
      simp only [pyReplaceAux, h.1, Bool.false_eq_true, if_false]
      rw [ih h.2]

/-- pyReplace with an absent needle is the identity. -/
theorem pyReplace_of_not_occurs (needle repl s : List Char)
    (h : occursIn needle s = false) : pyReplace needle repl s = s := by
  unfold pyReplace
  cases hn : needle.isEmpty with
  | true =>
      exfalso
      cases needle with
      | nil => cases s with
        | nil => simp [occursIn] at h
        | cons c cs => simp [occursIn, List.isPrefixOf] at h
      | cons d ds => simp [List.isEmpty] at hn
  | false => simp only [if_false, Bool.false_eq_true]
             exact pyReplaceAux_of_not_occurs needle repl s h

/-- The me substitution is the identity on regex text that neither contains a
dotted me segment nor ends with one, whatever the auth id is. -/
theorem transformAclMeToUuidOrMe_id (authId r : List Char)
    (h1 : occursIn (strL "\\.me\\.") r = false)
    (h2 : (strL "\\.me").isSuffixOf r = false) :
    transformAclMeToUuidOrMe authId r = r := by
  unfold transformAclMeToUuidOrMe
  rw [pyReplace_of_not_occurs _ _ _ h1]
  show (if (strL "\\.me").isSuffixOf r = true then
      List.take (r.length - 4) r ++ strL "\\.(me|" ++ authId ++ strL ")"
    else r) = r
  rw [h2]
  simp

/-- For an ACL without me segments the compiled regex text is independent of
the auth id: it is the anchored wildcard-substituted escape of the ACL. -/
theorem transformAclToRegex_no_me (authId acl out : List Char)
    (h : pyReplace (strL "\\#") (strL ".*?")
        (pyReplace (strL "\\*") (strL "[^.]*?") (reEscape acl)) = out)
    (h1 : occursIn (strL "\\.me\\.") out = false)
    (h2 : (strL "\\.me").isSuffixOf out = false) :
    transformAclToRegex authId acl = '^' :: out ++ ['$'] := by
  unfold transformAclToRegex
  rw [h]
  show '^' :: transformAclMeToUuidOrMe authId out ++ ['$'] = '^' :: out ++ ['$']
  rw [transformAclMeToUuidOrMe_id authId out h1 h2]

/-- C3: for every token, the pattern is escaped and anchored, the single-star
wildcard matches one segment's worth of characters only (it cannot cross a
dot), and the hash wildcard crosses segments: ACL confd.*.read matches
required confd.users.read but not confd.users.extensions.read, while ACL
confd.#.read matches both, for every auth id. -/
theorem C3_theorem (authId : List Char) :
    aclMatches authId (strL "confd.*.read") (strL "confd.users.read") = true ∧
    aclMatches authId (strL "confd.*.read") (strL "confd.users.extensions.read") = false ∧
    aclMatches authId (strL "confd.#.read") (strL "confd.users.read") = true ∧
    aclMatches authId (strL "confd.#.read") (strL "confd.users.extensions.read") = true := by
  have hstar := transformAclToRegex_no_me authId (strL "confd.*.read")
    (strL "confd\\.[^.]*?\\.read") (by decide) (by decide) (by decide)
  have hhash := transformAclToRegex_no_me authId (strL "confd.#.read")
    (strL "confd\\..*?\\.read") (by decide) (by decide) (by decide)
  refine ⟨?_, ?_, ?_, ?_⟩ <;> unfold aclMatches
  · rw [hstar]; decide
  · rw [hstar]; decide
  · rw [hhash]; decide
  · rw [hhash]; decide

/-- C3 witness: the matching facts at a concrete auth id. -/
theorem C3_witness :
    aclMatches (strL "ABC") (strL "confd.*.read") (strL "confd.users.read") = true ∧
    aclMatches (strL "ABC") (strL "confd.*.read") (strL "confd.users.extensions.read") = false ∧
    aclMatches (strL "ABC") (strL "confd.#.read") (strL "confd.users.read") = true ∧
    aclMatches (strL "ABC") (strL "confd.#.read") (strL "confd.users.extensions.read") = true :=
  C3_theorem (strL "ABC")

/-- Unfolding of the ACL decision for a present required ACL. -/
theorem matchesRequiredAcl_some_eq (a : List Char) (L : List (List Char))
    (r : List Char) :
    matchesRequiredAcl a L (some r) =
      if ((L.filter fun x => startsWithBang x).map (List.drop 1)).any
          (fun n => aclMatches a n r) then false
      else (L.filter fun x => !startsWithBang x).any
          (fun p => aclMatches a p r) := rfl

/-- Denial stays denial under a larger negative set: the Boolean core of
revocation monotonicity. -/
theorem denyIfMono (nA nB pA : Bool) (h : (if nA then false else pA) = false) :
    (if nA || nB then false else pA) = false := by
  cases nA <;> cases nB <;> simp_all

/-- C4: ACL matching is monotone under adding a negative rule: if the list L
denies the required ACL r, then L with a bang rule appended still denies r,
for every auth id, pattern and required ACL. -/
theorem C4_theorem (authId X r : List Char) (L : List (List Char))
    (h : matchesRequiredAcl authId L (some r) = false) :
    matchesRequiredAcl authId (L ++ ['!' :: X]) (some r) = false := by
  rw [matchesRequiredAcl_some_eq] at h ⊢
  rw [List.filter_append, List.filter_append, List.map_append,
    List.any_append, List.any_append]
  have e1 : ((List.filter (fun x => startsWithBang x) ['!' :: X]).map
      (List.drop 1)).any (fun n => aclMatches authId n r) =
      (aclMatches authId X r || false) := rfl
  have e2 : (List.filter (fun x => !startsWithBang x) ['!' :: X]).any
      (fun p => aclMatches authId p r) = false := rfl
  rw [e1, e2, Bool.or_false, Bool.or_false]
  exact denyIfMono _ _ _ h

/-- C4 witness: a concretely denied required ACL stays denied after appending
a negative rule. -/
theorem C4_witness :
    matchesRequiredAcl (strL "A") [strL "dird.#"] (some (strL "confd.users.read")) = false ∧
    matchesRequiredAcl (strL "A") [strL "dird.#", '!' :: strL "confd.#"]
      (some (strL "confd.users.read")) = false :=
  ⟨by decide, C4_theorem (strL "A") (strL "confd.#") (strL "confd.users.read")
      [strL "dird.#"] (by decide)⟩

/-- The negative-rule loop fires exactly when some bang-prefixed ACL in the
list matches the required ACL after its bang is stripped. -/
theorem negAny_iff (a r : List Char) (L : List (List Char)) :
    (((L.filter fun x => startsWithBang x).map (List.drop 1)).any
        (fun n => aclMatches a n r)) = true ↔
      ∃ x ∈ L, startsWithBang x = true ∧ aclMatches a (x.drop 1) r = true := by
  simp only [List.any_eq_true, List.mem_map, List.mem_filter]
  constructor
  · rintro ⟨n, ⟨x, ⟨hx, hb⟩, rfl⟩, hm⟩
    exact ⟨x, hx, hb, hm⟩
  · rintro ⟨x, hx, hb, hm⟩
    exact ⟨x.drop 1, ⟨x, ⟨hx, hb⟩, rfl⟩, hm⟩

/-- The positive-rule loop fires exactly when some non-bang ACL in the list
matches the required ACL. -/
theorem posAny_iff (a r : List Char) (L : List (List Char)) :
    ((L.filter fun x => !startsWithBang x).any (fun p => aclMatches a p r)) = true ↔
      ∃ x ∈ L, startsWithBang x = false ∧ aclMatches a x r = true := by
  simp only [List.any_eq_true, List.mem_filter, Bool.not_eq_eq_eq_not, Bool.not_true]
  constructor
  · rintro ⟨x, ⟨hx, hb⟩, hm⟩
    exact ⟨x, hx, hb, hm⟩
  · rintro ⟨x, hx, hb, hm⟩
    exact ⟨x, ⟨hx, hb⟩, hm⟩

/-- A matching negative rule forces denial. -/
theorem matchesRequiredAcl_deny (a r : List Char) (L : List (List Char))
    (h : ∃ x ∈ L, startsWithBang x = true ∧ aclMatches a (x.drop 1) r = true) :
    matchesRequiredAcl a L (some r) = false := by
  rw [matchesRequiredAcl_some_eq, if_pos ((negAny_iff a r L).mpr h)]

/-- The allow decision holds exactly when no negative rule matches and some
positive rule does. -/
theorem matchesRequiredAcl_allow_iff (a r : List Char) (L : List (List Char)) :
    matchesRequiredAcl a L (some r) = true ↔
      ((∀ x ∈ L, startsWithBang x = true → aclMatches a (x.drop 1) r = false) ∧
       ∃ x ∈ L, startsWithBang x = false ∧ aclMatches a x r = true) := by
  rw [matchesRequiredAcl_some_eq]
  by_cases hn : (((L.filter fun x => startsWithBang x).map (List.drop 1)).any
      (fun n => aclMatches a n r)) = true
  · rw [if_pos hn]
    simp only [Bool.false_eq_true, false_iff]
    rintro ⟨hall, -⟩
    rcases (negAny_iff a r L).mp hn with ⟨x, hx, hb, hm⟩
    rw [hall x hx hb] at hm
    exact Bool.false_ne_true hm
  · rw [if_neg hn]
    have hall : ∀ x ∈ L, startsWithBang x = true → aclMatches a (x.drop 1) r = false := by
      intro x hx hb
      cases hc : aclMatches a (x.drop 1) r with
      | false => rfl
      | true => exact absurd ((negAny_iff a r L).mpr ⟨x, hx, hb, hc⟩) hn
    constructor
    · intro hp
      exact ⟨hall, (posAny_iff a r L).mp hp⟩
    · rintro ⟨-, hex⟩
      exact (posAny_iff a r L).mpr hex

/-- C1 counterexample: the claim also asserts allow for an empty required
ACL, but the source only special-cases None; with token ACLs [confd.#] an
empty required ACL reaches the matching loops and is denied. -/
theorem C1_counterexample :
    matchesRequiredAcl (strL "X") [strL "confd.#"] (some (strL "")) = false := by
  decide

/-- C1 (amended): a None required ACL is allowed; an empty-string required
ACL is matched like any other string.  A matching negative rule (bang
stripped) denies even when a positive rule matches; otherwise the decision is
allow exactly when some positive rule matches.  In particular the ACL list
[confd.#, !confd.users.#] denies confd.users.read and allows
confd.lines.read, for every auth id. -/
theorem C1_theorem (authId : List Char) (L : List (List Char)) (r : List Char) :
    matchesRequiredAcl authId L none = true ∧
    ((∃ x ∈ L, startsWithBang x = true ∧ aclMatches authId (x.drop 1) r = true) →
      matchesRequiredAcl authId L (some r) = false) ∧
    (matchesRequiredAcl authId L (some r) = true ↔
      ((∀ x ∈ L, startsWithBang x = true → aclMatches authId (x.drop 1) r = false) ∧
       ∃ x ∈ L, startsWithBang x = false ∧ aclMatches authId x r = true)) ∧
    matchesRequiredAcl authId [strL "confd.#", strL "!confd.users.#"]
      (some (strL "confd.users.read")) = false ∧
    matchesRequiredAcl authId [strL "confd.#", strL "!confd.users.#"]
      (some (strL "confd.lines.read")) = true := by
  have hA := transformAclToRegex_no_me authId (strL "confd.#")
    (strL "confd\\..*?") (by decide) (by decide) (by decide)
  have hB := transformAclToRegex_no_me authId (strL "confd.users.#")
    (strL "confd\\.users\\..*?") (by decide) (by decide) (by decide)
  have hmB1 : aclMatches authId (strL "confd.users.#") (strL "confd.users.read") = true := by
    unfold aclMatches; rw [hB]; decide
  have hmB2 : aclMatches authId (strL "confd.users.#") (strL "confd.lines.read") = false := by
    unfold aclMatches; rw [hB]; decide
  have hmA2 : aclMatches authId (strL "confd.#") (strL "confd.lines.read") = true := by
    unfold aclMatches; rw [hA]; decide
  refine ⟨rfl, matchesRequiredAcl_deny authId r L,
    matchesRequiredAcl_allow_iff authId r L, ?_, ?_⟩
  · refine matchesRequiredAcl_deny authId (strL "confd.users.read") _
      ⟨strL "!confd.users.#", by decide, by decide, ?_⟩
    have hd : (strL "!confd.users.#").drop 1 = strL "confd.users.#" := by decide
    rw [hd]; exact hmB1
  · refine (matchesRequiredAcl_allow_iff authId (strL "confd.lines.read") _).mpr
      ⟨?_, strL "confd.#", by decide, by decide, hmA2⟩
    intro x hx hb
    rcases List.mem_cons.mp hx with h1 | hx2
    · subst h1; exact absurd hb (by decide)
    · rcases List.mem_cons.mp hx2 with h2 | h3
      · subst h2
        have hd : (strL "!confd.users.#").drop 1 = strL "confd.users.#" := by decide
        rw [hd]; exact hmB2
      · exact absurd h3 (List.not_mem_nil x)

/-- C1 witness: the amended decision rule at a concrete token, with the
negative-precedence hypothesis discharged on [confd.#, !confd.users.#]. -/
theorem C1_witness :
    (∃ x ∈ [strL "confd.#", strL "!confd.users.#"], startsWithBang x = true ∧
      aclMatches (strL "W") (x.drop 1) (strL "confd.users.read") = true) ∧
    matchesRequiredAcl (strL "W") [strL "confd.#", strL "!confd.users.#"]
      (some (strL "confd.users.read")) = false :=
  ⟨⟨strL "!confd.users.#", by decide, by decide, by decide⟩,
    (C1_theorem (strL "W") [strL "confd.#", strL "!confd.users.#"]
      (strL "confd.users.read")).2.1
      ⟨strL "!confd.users.#", by decide, by decide, by decide⟩⟩

/-- C2 counterexample: the claim says every whole me segment bounded by dots
matches the auth id, but the replacement of dotted me segments is a
non-overlapping left-to-right text replace, so in a.me.me.b the second me
segment keeps its shared dot consumed by the first rewrite and stays literal:
with auth_id U the required ACL a.U.U.b is denied although both me segments
are dot-bounded. -/
theorem C2_counterexample :
    matchesRequiredAcl (strL "U") [strL "a.me.me.b"] (some (strL "a.U.U.b")) = false := by
  decide

/-- C2 (amended): dotted me segments are rewritten to the me-or-auth-id
alternation by a left-to-right non-overlapping scan (so of two adjacent me
segments only the first is rewritten), a trailing dotted me is rewritten, and
me inside a longer segment is untouched.  The concrete scenario holds: with
auth_id ABC and ACL dird.me.contacts.read, required dird.ABC.contacts.read
and dird.me.contacts.read are allowed and dird.XYZ.contacts.read is denied. -/
theorem C2_theorem :
    matchesRequiredAcl (strL "ABC") [strL "dird.me.contacts.read"]
      (some (strL "dird.ABC.contacts.read")) = true ∧
    matchesRequiredAcl (strL "ABC") [strL "dird.me.contacts.read"]
      (some (strL "dird.me.contacts.read")) = true ∧
    matchesRequiredAcl (strL "ABC") [strL "dird.me.contacts.read"]
      (some (strL "dird.XYZ.contacts.read")) = false ∧
    aclMatches (strL "U") (strL "a.me.me.b") (strL "a.U.me.b") = true ∧
    aclMatches (strL "U") (strL "a.me.me.b") (strL "a.me.U.b") = false ∧
    aclMatches (strL "ABC") (strL "dird.me") (strL "dird.ABC") = true ∧
    aclMatches (strL "ABC") (strL "dird.me") (strL "dird.me") = true ∧
    aclMatches (strL "ABC") (strL "dird.me") (strL "dird.XYZ") = false ∧
    aclMatches (strL "ABC") (strL "a.mex.b") (strL "a.ABCx.b") = false ∧
    aclMatches (strL "ABC") (strL "a.mex.b") (strL "a.mex.b") = true := by
  refine ⟨?_, ?_, ?_, ?_, ?_, ?_, ?_, ?_, ?_, ?_⟩ <;> decide

/-- Remaining fetch budget of a renderer state: one before the context has
been fetched, zero afterwards. -/
def fetchBudget {Ctx ε : Type} (r : LazyRenderer Ctx ε) : Nat :=
  if r.initialized then 0 else 1

/-- One template evaluation never fetches more than the remaining budget, and
the budget decreases by at least the number of fetches. -/
theorem evaluateTemplate_budget {Ctx ε : Type} (tpl : Ctx → RenderResult ε)
    (r : LazyRenderer Ctx ε) (acls : List (List Char)) (r2 : LazyRenderer Ctx ε)
    (n : Nat) (h : evaluateTemplate tpl r = .ok (acls, r2, n)) :
    n + fetchBudget r2 ≤ fetchBudget r := by
  unfold evaluateTemplate at h
  cases htpl : tpl r.data with
  | ok text =>
      rw [htpl] at h
      dsimp only at h
      simp only [Except.ok.injEq, Prod.mk.injEq] at h
      obtain ⟨-, rfl, rfl⟩ := h
      simp
  | err e =>
      rw [htpl] at h
      simp at h
  | undef =>
      rw [htpl] at h
      dsimp only at h
      by_cases hi : r.initialized
      · rw [if_pos hi] at h
        simp only [Except.ok.injEq, Prod.mk.injEq] at h
        obtain ⟨-, rfl, rfl⟩ := h
        simp
      · rw [if_neg hi] at h
        cases htpl2 : tpl r.getDataFn with
        | ok text =>
            rw [htpl2] at h
            dsimp only at h
            simp only [Except.ok.injEq, Prod.mk.injEq] at h
            obtain ⟨-, rfl, rfl⟩ := h
            simp [fetchBudget, hi]
        | err e =>
            rw [htpl2] at h
            simp at h
        | undef =>
            rw [htpl2] at h
            dsimp only at h
            simp only [Except.ok.injEq, Prod.mk.injEq] at h
            obtain ⟨-, rfl, rfl⟩ := h
            simp [fetchBudget, hi]

/-- The render loop never exceeds the remaining fetch budget. -/
theorem renderGo_budget {Ctx ε : Type} :
    ∀ (tpls : List (Ctx → RenderResult ε)) (r : LazyRenderer Ctx ε)
      (acls : List (List Char)) (r2 : LazyRenderer Ctx ε) (n : Nat),
      renderGo tpls r = .ok (acls, r2, n) → n + fetchBudget r2 ≤ fetchBudget r := by
  intro tpls
  induction tpls with
  | nil =>
      intro r acls r2 n h
      unfold renderGo at h
      simp only [Except.ok.injEq, Prod.mk.injEq] at h
      obtain ⟨-, rfl, rfl⟩ := h
      simp
  | cons t ts ih =>
      intro r acls r2 n h
      unfold renderGo at h
      cases he : evaluateTemplate t r with
      | error e =>
          rw [he] at h
          simp at h
      | ok v =>
          obtain ⟨acls1, r1, n1⟩ := v
          rw [he] at h
          dsimp only at h
          cases hg : renderGo ts r1 with
          | error e =>
              rw [hg] at h
              simp at h
          | ok w =>
              obtain ⟨acls2, r3, n2⟩ := w
              rw [hg] at h
              dsimp only at h
              simp only [Except.ok.injEq, Prod.mk.injEq] at h
              obtain ⟨-, rfl, rfl⟩ := h
              have h1 := evaluateTemplate_budget t r acls1 r1 n1 he
              have h2 := ih r1 acls2 r3 n2 hg
              omega

/-- C5: over one render, get_data_fn is fetched at most once (on the first
undefined-variable failure, after which the state is initialized and the
failing template is retried against the fetched context); a template that
fails with an undefined variable after initialization yields no ACLs and no
error; and a non-undefined render error propagates out of the render. -/
theorem C5_theorem :
    (∀ (Ctx ε : Type) (emptyCtx getDataFn : Ctx)
        (tpls : List (Ctx → RenderResult ε)) (acls : List (List Char))
        (rEnd : LazyRenderer Ctx ε) (n : Nat),
        lazyRender emptyCtx getDataFn tpls = .ok (acls, rEnd, n) → n ≤ 1) ∧
    (∀ (Ctx ε : Type) (tpl : Ctx → RenderResult ε) (r : LazyRenderer Ctx ε),
        r.initialized = true → tpl r.data = .undef →
        evaluateTemplate tpl r = .ok ([], r, 0)) ∧
    (∀ (Ctx ε : Type) (tpl : Ctx → RenderResult ε) (r : LazyRenderer Ctx ε)
        (e : ε), tpl r.data = .err e → evaluateTemplate tpl r = .error e) ∧
    (∀ (Ctx ε : Type) (tpl : Ctx → RenderResult ε) (r : LazyRenderer Ctx ε),
        r.initialized = false → tpl r.data = .undef →
        evaluateTemplate tpl r =
          (match tpl r.getDataFn with
           | .ok text => .ok (nonEmptyLines text,
               { r with initialized := true, data := r.getDataFn }, 1)
           | .err e => .error e
           | .undef => .ok ([],
               { r with initialized := true, data := r.getDataFn }, 1))) ∧
    (∀ (Ctx ε : Type) (tpl : Ctx → RenderResult ε)
        (ts : List (Ctx → RenderResult ε)) (r : LazyRenderer Ctx ε) (e : ε),
        tpl r.data = .err e → renderGo (tpl :: ts) r = .error e) := by
  refine ⟨?_, ?_, ?_, ?_, ?_⟩
  · intro Ctx ε emptyCtx getDataFn tpls acls rEnd n h
    have hb := renderGo_budget tpls
      { aclTemplates := tpls, getDataFn := getDataFn,
        data := emptyCtx, initialized := false } acls rEnd n h
    have h2 : fetchBudget
        { aclTemplates := tpls, getDataFn := getDataFn,
          data := emptyCtx, initialized := false : LazyRenderer Ctx ε } = 1 := rfl
    rw [h2] at hb
    omega
  · intro Ctx ε tpl r hi hu
    unfold evaluateTemplate
    rw [hu]
    dsimp only
    rw [if_pos hi]
  · intro Ctx ε tpl r e hu
    unfold evaluateTemplate
    rw [hu]
  · intro Ctx ε tpl r hi hu
    unfold evaluateTemplate
    rw [hu]
    dsimp only
    rw [if_neg (by rw [hi]; exact Bool.false_ne_true)]
  · intro Ctx ε tpl ts r e hu
    have h3 : evaluateTemplate tpl r = .error e := by
      unfold evaluateTemplate
      rw [hu]
    unfold renderGo
    rw [h3]

/-- C5 witness: a run whose single template fails twice with an undefined
variable fetches the context exactly once, so the fetch-count bound of the
theorem applies with its render hypothesis discharged concretely. -/
theorem C5_witness :
    lazyRender false true [fun (_ : Bool) => (RenderResult.undef : RenderResult Unit)] =
      .ok ([], { aclTemplates := [fun (_ : Bool) => (RenderResult.undef : RenderResult Unit)],
                 getDataFn := true, data := true, initialized := true }, 1) ∧
    (1 : Nat) ≤ 1 :=
  ⟨rfl, C5_theorem.1 Bool Unit false true
    [fun _ => RenderResult.undef] []
    { aclTemplates := [fun _ => RenderResult.undef],
      getDataFn := true, data := true, initialized := true } 1 rfl⟩

/-- Shape of one publish pass: every session yields exactly one event, and a
warning is recorded exactly for the sessions with no matching token. -/
theorem publishEvents_spec (tokens : List SweeperToken) :
    ∀ sessions : List SweeperSession,
      publishEvents tokens sessions =
        (sessions.map (eventForSession tokens),
         (sessions.filter
             (fun s => (tokens.find? (fun t => t.session_uuid = s.uuid)).isNone)).map
           (fun s => s.uuid)) := by
  intro sessions
  induction sessions with
  | nil => rfl
  | cons s rest ih =>
      unfold publishEvents
      rw [ih]
      cases hf : tokens.find? (fun t => t.session_uuid = s.uuid) with
      | some t => simp [hf, eventForSession, List.filter_cons]
      | none => simp [hf, eventForSession, List.filter_cons]

/-- C6 counterexample: for a session with no matching token the source logs
the warning and still publishes an event (the publish call is outside the
token loop), with user_uuid and tenant_uuid None - the claim says no event is
published for such a session. -/
theorem C6_counterexample :
    publishEvents [] [⟨"s1"⟩] = ([⟨"s1", none, none⟩], ["s1"]) := by
  decide

/-- C6 (amended): every session in the batch gets exactly one event; a
session whose uuid matches no token's session_uuid is warned about and its
event carries None user_uuid and tenant_uuid, while a session with a matching
token gets the event payload uuid, auth_id and metadata tenant_uuid of the
first matching token. -/
theorem C6_theorem (tokens : List SweeperToken) (sessions : List SweeperSession) :
    (publishEvents tokens sessions).1 = sessions.map (eventForSession tokens) ∧
    (publishEvents tokens sessions).2 =
      (sessions.filter
          (fun s => (tokens.find? (fun t => t.session_uuid = s.uuid)).isNone)).map
        (fun s => s.uuid) ∧
    (∀ (s : SweeperSession) (t : SweeperToken),
        tokens.find? (fun t2 => t2.session_uuid = s.uuid) = some t →
        eventForSession tokens s =
          ⟨s.uuid, some t.auth_id, metaGet t.metadata "tenant_uuid"⟩) ∧
    (∀ s : SweeperSession,
        tokens.find? (fun t2 => t2.session_uuid = s.uuid) = none →
        eventForSession tokens s = ⟨s.uuid, none, none⟩) := by
  refine ⟨?_, ?_, ?_, ?_⟩
  · rw [publishEvents_spec]
  · rw [publishEvents_spec]
  · intro s t hf
    unfold eventForSession
    rw [hf]
  · intro s hf
    unfold eventForSession
    rw [hf]

/-- C6 witness: the amended payload rule applied to a concrete matched
session, with the find hypothesis discharged. -/
theorem C6_witness :
    ([⟨"s1", "u1", [("tenant_uuid", "t1")]⟩] :
        List SweeperToken).find? (fun t2 => t2.session_uuid = "s1") =
      some ⟨"s1", "u1", [("tenant_uuid", "t1")]⟩ ∧
    eventForSession [⟨"s1", "u1", [("tenant_uuid", "t1")]⟩] ⟨"s1"⟩ =
      ⟨"s1", some "u1", some "t1"⟩ :=
  have h := C6_theorem [⟨"s1", "u1", [("tenant_uuid", "t1")]⟩] []
  ⟨by decide, h.2.2.1 ⟨"s1"⟩ ⟨"s1", "u1", [("tenant_uuid", "t1")]⟩ (by decide)⟩

/-- Every error produced by the limit-offset validator is built by the
supplied error constructor. -/
theorem checkValid_error_shape (v : PyVal) (d : Option Int)
    (mk : PyVal → PageError) (e : PageError)
    (h : checkValidLimitOrOffset v d mk = .error e) : ∃ w, e = mk w := by
  unfold checkValidLimitOrOffset at h
  cases v with
  | pyBool b =>
      simp only [Except.error.injEq] at h
      exact ⟨.pyBool b, h.symm⟩
  | pyNone => simp at h
  | pyInt n =>
      dsimp only at h
      cases hp : pyIntOf (.pyInt n) with
      | none => rw [hp] at h; simp only [Except.error.injEq] at h; exact ⟨.pyInt n, h.symm⟩
      | some m =>
          rw [hp] at h
          dsimp only at h
          by_cases hm : m < 0
          · rw [if_pos hm] at h
            simp only [Except.error.injEq] at h
            exact ⟨.pyInt n, h.symm⟩
          · rw [if_neg hm] at h
            cases h
  | pyStr s =>
      dsimp only at h
      cases hp : pyIntOf (.pyStr s) with
      | none => rw [hp] at h; simp only [Except.error.injEq] at h; exact ⟨.pyStr s, h.symm⟩
      | some m =>
          rw [hp] at h
          dsimp only at h
          by_cases hm : m < 0
          · rw [if_pos hm] at h
            simp only [Except.error.injEq] at h
            exact ⟨.pyStr s, h.symm⟩
          · rw [if_neg hm] at h
            cases h

/-- C7 counterexample: an invalid direction with no order argument raises
nothing - the query is returned unchanged - while the claim requires
InvalidSortDirection regardless of the other argument. -/
theorem C7_counterexample :
    updateQuery ["name"] {} none none none (some "bogus") = .ok {} := by
  decide

/-- C7 (amended): ordering is validated only when both order and direction
are supplied and truthy; then an unknown order column raises
InvalidSortColumn (checked first), an order column that is known but a
direction outside asc and desc raises InvalidSortDirection, and when either
argument is absent or empty no sort error can be raised - any error then
concerns limit or offset. -/
theorem C7_theorem (cols : List String) (q : PgQuery)
    (limit offset : Option PyVal) (order direction : Option String) :
    (∀ o d, order = some o → direction = some d →
      truthyStr order = true → truthyStr direction = true →
      cols.contains o = false →
      updateQuery cols q limit offset order direction =
        .error (.invalidSortColumn o)) ∧
    (∀ o d, order = some o → direction = some d →
      truthyStr order = true → truthyStr direction = true →
      cols.contains o = true → ¬ (d = "asc" ∨ d = "desc") →
      updateQuery cols q limit offset order direction =
        .error (.invalidSortDirection d)) ∧
    (¬ (truthyStr order = true ∧ truthyStr direction = true) →
      ∀ e, updateQuery cols q limit offset order direction = .error e →
        (∃ v, e = .invalidLimit v) ∨ (∃ v, e = .invalidOffset v)) := by
  refine ⟨?_, ?_, ?_⟩
  · intro o d ho hd ht1 ht2 hc
    subst ho; subst hd
    unfold updateQuery
    rw [if_pos ⟨ht1, ht2⟩]
    dsimp only
    rw [if_pos (by simp_all)]
  · intro o d ho hd ht1 ht2 hc hdir
    subst ho; subst hd
    unfold updateQuery
    rw [if_pos ⟨ht1, ht2⟩]
    dsimp only
    rw [if_neg (by simp_all), if_pos hdir]
  · intro hC e h
    unfold updateQuery at h
    rw [if_neg hC] at h
    dsimp only at h
    cases hl : limit with
    | none =>
        rw [hl] at h
        dsimp only at h
        cases hof : offset with
        | none => rw [hof] at h; cases h
        | some v =>
            rw [hof] at h
            dsimp only at h
            cases hcv : checkValidLimitOrOffset v (some 0) PageError.invalidOffset with
            | error e2 =>
                rw [hcv] at h
                dsimp only at h
                injection h with h
                subst h
                exact Or.inr (checkValid_error_shape v (some 0) _ _ hcv)
            | ok n => rw [hcv] at h; dsimp only at h; cases h
    | some v =>
        rw [hl] at h
        dsimp only at h
        cases hcv : checkValidLimitOrOffset v none PageError.invalidLimit with
        | error e2 =>
            rw [hcv] at h
            dsimp only at h
            injection h with h
            subst h
            exact Or.inl (checkValid_error_shape v none _ _ hcv)
        | ok n =>
            rw [hcv] at h
            dsimp only at h
            cases hof : offset with
            | none => rw [hof] at h; cases h
            | some w =>
                rw [hof] at h
                dsimp only at h
                cases hcw : checkValidLimitOrOffset w (some 0) PageError.invalidOffset with
                | error e2 =>
                    rw [hcw] at h
                    dsimp only at h
                    injection h with h
                    subst h
                    exact Or.inr (checkValid_error_shape w (some 0) _ _ hcw)
                | ok m => rw [hcw] at h; dsimp only at h; cases h

/-- C7 witness: the amended rule at concrete arguments, with the hypotheses
discharged on an unknown sort column supplied together with a direction. -/
theorem C7_witness :
    (["name"] : List String).contains "nope" = false ∧
    updateQuery ["name"] {} none none (some "nope") (some "desc") =
      .error (.invalidSortColumn "nope") :=
  have h := C7_theorem ["name"] {} none none (some "nope") (some "desc")
  ⟨by decide, h.1 "nope" "desc" rfl rfl (by decide) (by decide) (by decide)⟩

/-- C8: boolean limit and offset values are rejected before any coercion, a
string value that does not parse as an integer is rejected, a negative
integer (given directly or parsed from a string) is rejected, None returns
the supplied default (0 for offset, no bound for limit), and absent limit and
offset arguments leave the query's limit and offset untouched. -/
theorem C8_theorem :
    (∀ (b : Bool) (d : Option Int) (mk : PyVal → PageError),
      checkValidLimitOrOffset (.pyBool b) d mk = .error (mk (.pyBool b))) ∧
    (∀ (s : String) (d : Option Int) (mk : PyVal → PageError),
      parsePyInt s.data = none →
      checkValidLimitOrOffset (.pyStr s) d mk = .error (mk (.pyStr s))) ∧
    (∀ (n : Int) (d : Option Int) (mk : PyVal → PageError), n < 0 →
      checkValidLimitOrOffset (.pyInt n) d mk = .error (mk (.pyInt n))) ∧
    (∀ (s : String) (n : Int) (d : Option Int) (mk : PyVal → PageError),
      parsePyInt s.data = some n → n < 0 →
      checkValidLimitOrOffset (.pyStr s) d mk = .error (mk (.pyStr s))) ∧
    (∀ (d : Option Int) (mk : PyVal → PageError),
      checkValidLimitOrOffset .pyNone d mk = .ok d) ∧
    (∀ (cols : List String) (q : PgQuery) (order direction : Option String)
        (res : PgQuery),
      updateQuery cols q none none order direction = .ok res →
      res.limit = q.limit ∧ res.offset = q.offset) ∧
    (∀ (cols : List String) (q : PgQuery) (b : Bool) (offset : Option PyVal),
      updateQuery cols q (some (.pyBool b)) offset none none =
        .error (.invalidLimit (.pyBool b))) := by
  refine ⟨?_, ?_, ?_, ?_, ?_, ?_, ?_⟩
  · intro b d mk; rfl
  · intro s d mk h
    unfold checkValidLimitOrOffset
    dsimp only
    rw [show pyIntOf (.pyStr s) = parsePyInt s.data from rfl, h]
  · intro n d mk h
    unfold checkValidLimitOrOffset
    dsimp only
    rw [show pyIntOf (.pyInt n) = some n from rfl]
    dsimp only
    rw [if_pos h]
  · intro s n d mk hp h
    unfold checkValidLimitOrOffset
    dsimp only
    rw [show pyIntOf (.pyStr s) = parsePyInt s.data from rfl, hp]
    dsimp only
    rw [if_pos h]
  · intro d mk; rfl
  · intro cols q order direction res h
    unfold updateQuery at h
    by_cases hC : truthyStr order = true ∧ truthyStr direction = true
    · rw [if_pos hC] at h
      cases order with
      | none => exact absurd hC.1 (by simp [truthyStr])
      | some o =>
          cases direction with
          | none => exact absurd hC.2 (by simp [truthyStr])
          | some d =>
              dsimp only at h
              by_cases hc : o ∈ cols
              · rw [if_neg (by simp_all)] at h
                by_cases hd : d = "asc" ∨ d = "desc"
                · rw [if_neg (by simp_all)] at h
                  dsimp only at h
                  simp only [Except.ok.injEq] at h
                  subst h
                  exact ⟨rfl, rfl⟩
                · rw [if_pos hd] at h
                  cases h
              · rw [if_pos (by simp_all)] at h
                cases h
    · rw [if_neg hC] at h
      dsimp only at h
      simp only [Except.ok.injEq] at h
      subst h
      exact ⟨rfl, rfl⟩
  · intro cols q b offset
    unfold updateQuery
    rw [if_neg (by simp [truthyStr])]
    rfl

/-- C8 witness: the validator rejects the string five-point-five for limit
and accepts 7, and a boolean limit is rejected through update_query, at
concrete inputs via the theorem. -/
theorem C8_witness :
    parsePyInt (strL "abc") = none ∧
    checkValidLimitOrOffset (.pyStr "abc") none .invalidLimit =
      .error (.invalidLimit (.pyStr "abc")) ∧
    updateQuery ["name"] {} (some (.pyBool true)) none none none =
      .error (.invalidLimit (.pyBool true)) :=
  ⟨by decide,
    C8_theorem.2.1 "abc" none PageError.invalidLimit (by decide),
    C8_theorem.2.2.2.2.2.2 ["name"] {} true none⟩

/-- An existing user-policy pair makes the insert fail with a unique
violation. -/
theorem insertUserPolicy_mem (st : Store) (u p : String)
    (h : (u, p) ∈ st.userPolicies) :
    insertUserPolicy st u p = .error .uniqueViolation := by
  unfold insertUserPolicy
  rw [if_pos h]

/-- add_policy on an existing association consumes the unique violation and
returns with the state unchanged. -/
theorem addPolicy_mem (st : Store) (u p : String)
    (h : (u, p) ∈ st.userPolicies) : addPolicy st u p = .ok st := by
  unfold addPolicy
  rw [insertUserPolicy_mem st u p h]

/-- add_policy on a new association between existing endpoints appends the
one row. -/
theorem addPolicy_new (st : Store) (u p : String) (hu : u ∈ st.users)
    (hp : p ∈ st.policies) (hm : (u, p) ∉ st.userPolicies) :
    addPolicy st u p =
      .ok { st with userPolicies := st.userPolicies ++ [(u, p)] } := by
  unfold addPolicy
  rw [show insertUserPolicy st u p =
      .ok { st with userPolicies := st.userPolicies ++ [(u, p)] } from by
    unfold insertUserPolicy
    rw [if_neg hm, if_neg (not_not_intro hu), if_neg (not_not_intro hp)]]

/-- An existing tenant-user pair makes the insert fail with a unique
violation. -/
theorem insertTenantUser_mem (st : Store) (t u : String)
    (h : (t, u) ∈ st.tenantUsers) :
    insertTenantUser st t u = .error .uniqueViolation := by
  unfold insertTenantUser
  rw [if_pos h]

/-- add_user on an existing association consumes the unique violation and
returns with the state unchanged. -/
theorem addUser_mem (st : Store) (t u : String)
    (h : (t, u) ∈ st.tenantUsers) : addUser st t u = .ok st := by
  unfold addUser
  rw [insertTenantUser_mem st t u h]

/-- add_user on a new association between existing endpoints appends the one
row. -/
theorem addUser_new (st : Store) (t u : String) (ht : t ∈ st.tenants)
    (hu : u ∈ st.users) (hm : (t, u) ∉ st.tenantUsers) :
    addUser st t u =
      .ok { st with tenantUsers := st.tenantUsers ++ [(t, u)] } := by
  unfold addUser
  rw [show insertTenantUser st t u =
      .ok { st with tenantUsers := st.tenantUsers ++ [(t, u)] } from by
    unfold insertTenantUser
    rw [if_neg hm, if_neg (not_not_intro ht), if_neg (not_not_intro hu)]]

/-- C9: membership adds are idempotent for existing endpoints - re-running
add_policy or add_user right after a successful add returns success with the
state unchanged, and a fresh add creates exactly one row - while a missing
endpoint surfaces as UnknownUser, UnknownPolicy or UnknownTenant according to
the violated foreign-key constraint. -/
theorem C9_theorem (st : Store) (u p t : String) :
    (∀ st1 : Store, u ∈ st.users → p ∈ st.policies →
      addPolicy st u p = .ok st1 → addPolicy st1 u p = .ok st1) ∧
    ((u, p) ∉ st.userPolicies → u ∉ st.users →
      addPolicy st u p = .error (.unknownUser u)) ∧
    ((u, p) ∉ st.userPolicies → u ∈ st.users → p ∉ st.policies →
      addPolicy st u p = .error (.unknownPolicy p)) ∧
    (u ∈ st.users → p ∈ st.policies → (u, p) ∉ st.userPolicies →
      addPolicy st u p =
        .ok { st with userPolicies := st.userPolicies ++ [(u, p)] } ∧
      (st.userPolicies ++ [(u, p)]).count (u, p) =
        st.userPolicies.count (u, p) + 1) ∧
    (∀ st1 : Store, t ∈ st.tenants → u ∈ st.users →
      addUser st t u = .ok st1 → addUser st1 t u = .ok st1) ∧
    ((t, u) ∉ st.tenantUsers → t ∉ st.tenants →
      addUser st t u = .error (.unknownTenant t)) ∧
    ((t, u) ∉ st.tenantUsers → t ∈ st.tenants → u ∉ st.users →
      addUser st t u = .error (.unknownUser u)) := by
  refine ⟨?_, ?_, ?_, ?_, ?_, ?_, ?_⟩
  · intro st1 hu hp hok
    by_cases hm : (u, p) ∈ st.userPolicies
    · rw [addPolicy_mem st u p hm] at hok
      simp only [Except.ok.injEq] at hok
      subst hok
      exact addPolicy_mem st u p hm
    · rw [addPolicy_new st u p hu hp hm] at hok
      simp only [Except.ok.injEq] at hok
      subst hok
      exact addPolicy_mem _ u p (by simp)
  · intro hm hu
    unfold addPolicy
    rw [show insertUserPolicy st u p =
        .error (.fkeyViolation "auth_user_policy_user_uuid_fkey") from by
      unfold insertUserPolicy
      rw [if_neg hm, if_pos hu]]
    rfl
  · intro hm hu hp
    unfold addPolicy
    rw [show insertUserPolicy st u p =
        .error (.fkeyViolation "auth_user_policy_policy_uuid_fkey") from by
      unfold insertUserPolicy
      rw [if_neg hm, if_neg (not_not_intro hu), if_pos hp]]
    rfl
  · intro hu hp hm
    refine ⟨addPolicy_new st u p hu hp hm, ?_⟩
    simp
  · intro st1 ht hu hok
    by_cases hm : (t, u) ∈ st.tenantUsers
    · rw [addUser_mem st t u hm] at hok
      simp only [Except.ok.injEq] at hok
      subst hok
      exact addUser_mem st t u hm
    · rw [addUser_new st t u ht hu hm] at hok
      simp only [Except.ok.injEq] at hok
      subst hok
      exact addUser_mem _ t u (by simp)
  · intro hm ht
    unfold addUser
    rw [show insertTenantUser st t u =
        .error (.fkeyViolation "auth_tenant_user_tenant_uuid_fkey") from by
      unfold insertTenantUser
      rw [if_neg hm, if_pos ht]]
    rfl
  · intro hm ht hu
    unfold addUser
    rw [show insertTenantUser st t u =
        .error (.fkeyViolation "auth_tenant_user_user_uuid_fkey") from by
      unfold insertTenantUser
      rw [if_neg hm, if_neg (not_not_intro ht), if_pos hu]]
    rfl

/-- C9 witness: idempotence of add_policy at a concrete store, the success
hypothesis discharged by evaluation. -/
theorem C9_witness :
    addPolicy ⟨["u1"], ["p1"], ["t1"], [], []⟩ "u1" "p1" =
      .ok ⟨["u1"], ["p1"], ["t1"], [("u1", "p1")], []⟩ ∧
    addPolicy ⟨["u1"], ["p1"], ["t1"], [("u1", "p1")], []⟩ "u1" "p1" =
      .ok ⟨["u1"], ["p1"], ["t1"], [("u1", "p1")], []⟩ :=
  have h := C9_theorem ⟨["u1"], ["p1"], ["t1"], [], []⟩ "u1" "p1" "t1"
  ⟨by decide, h.1 ⟨["u1"], ["p1"], ["t1"], [("u1", "p1")], []⟩
    (by decide) (by decide) (by decide)⟩

/-- C10: a token with no expiry or a zero expiry is never expired, and a
token with a positive expiry is expired exactly when the current time is
strictly past it. -/
theorem C10_theorem :
    (∀ now : ℚ, isExpired none now = false) ∧
    (∀ now : ℚ, isExpired (some 0) now = false) ∧
    (∀ e now : ℚ, 0 < e → (isExpired (some e) now = true ↔ now > e)) := by
  refine ⟨fun _ => rfl, fun now => ?_, fun e now he => ?_⟩
  · simp [isExpired]
  · simp [isExpired, ne_of_gt he, decide_eq_true_eq]

/-- C10 witness: the positive-expiry rule at a concrete token and time. -/
theorem C10_witness :
    (0 : ℚ) < 50 ∧ (isExpired (some 50) 100 = true ↔ (100 : ℚ) > 50) :=
  ⟨by norm_num, C10_theorem.2.2 50 100 (by norm_num)⟩
